import Mathlib

/-
Shallow embedding of the SoftLayer API client (src/SoftLayer/API.py):
the Python value model, the header dictionary operations, the Client
constructor, the Service call path, and the transport fault mapping.
-/

set_option autoImplicit false

namespace SLAPI

/-- A model of the dynamically-typed Python values that flow through the
client: `None`, integers, strings, dictionaries (ordered association
lists with unique keys, as Python dicts), and lists. -/
inductive Py where
  | none : Py
  | int (n : Int) : Py
  | str (s : String) : Py
  | dict (m : List (String × Py)) : Py
  | list (xs : List Py) : Py

/-- Python truthiness for the modelled values, as used by `if limit:` and
`all((...))` in the source. -/
def pyTruthy : Py → Bool
  | .none => false
  | .int n => n != 0
  | .str s => s != ""
  | .dict m => !m.isEmpty
  | .list xs => !xs.isEmpty

/-- The `int(...)` conversions applied by the source to `id`, `limit` and
`offset`; only integer inputs are modelled (other inputs raise in Python). -/
def pyInt : Py → Option Int
  | .int n => some n
  | _ => Option.none

/-- Python `str.strip()`: drop leading and trailing whitespace. -/
def pyStrip (s : String) : String :=
  ⟨((s.data.dropWhile Char.isWhitespace).reverse.dropWhile
      Char.isWhitespace).reverse⟩

/-- A header mapping: Python dict from header name to header body. -/
abbrev HeaderMap := List (String × Py)

/-- Dictionary read: first entry whose key matches. -/
def dictGet : HeaderMap → String → Option Py
  | [], _ => Option.none
  | (k', v') :: rest, k => if k' = k then some v' else dictGet rest k

/-- Dictionary write `d[k] = v`: replace the entry for `k` in place if
present, otherwise append it. -/
def dictSet : HeaderMap → String → Py → HeaderMap
  | [], k, v => [(k, v)]
  | (k', v') :: rest, k, v =>
      if k' = k then (k, v) :: rest else (k', v') :: dictSet rest k v

/-- Dictionary delete `del d[k]`: remove the entry for `k`. -/
def dictDel : HeaderMap → String → HeaderMap
  | [], _ => []
  | (k', v') :: rest, k => if k' = k then rest else (k', v') :: dictDel rest k

/-- Python `k in d` membership test. -/
def hasKey : HeaderMap → String → Bool
  | [], _ => false
  | (k', _) :: rest, k => if k' = k then true else hasKey rest k

/-- Number of entries carrying the key `k` (a well-formed dict has at most
one). -/
def countKey : HeaderMap → String → Nat
  | [], _ => 0
  | (k', _) :: rest, k => (if k' = k then 1 else 0) + countKey rest k

theorem dictGet_dictSet_self (m : HeaderMap) (k : String) (v : Py) :
    dictGet (dictSet m k v) k = some v := by
  induction m with
  | nil => simp [dictSet, dictGet]
  | cons p rest ih =>
      obtain ⟨k₁, v₁⟩ := p
      by_cases h : k₁ = k
      · subst h
        simp [dictSet, dictGet]
      · simp [dictSet, dictGet, h, ih]

theorem dictGet_dictSet_ne (m : HeaderMap) (k k₂ : String) (v : Py)
    (h : k₂ ≠ k) : dictGet (dictSet m k v) k₂ = dictGet m k₂ := by
  have hne : ¬(k = k₂) := fun hh => h hh.symm
  induction m with
  | nil => simp [dictSet, dictGet, hne]
  | cons p rest ih =>
      obtain ⟨k₁, v₁⟩ := p
      by_cases hk : k₁ = k
      · subst hk
        simp [dictSet, dictGet, hne]
      · simp [dictSet, dictGet, hk, ih]

theorem countKey_dictSet_ne (m : HeaderMap) (k k₂ : String) (v : Py)
    (h : k₂ ≠ k) : countKey (dictSet m k v) k₂ = countKey m k₂ := by
  have hne : ¬(k = k₂) := fun hh => h hh.symm
  induction m with
  | nil => simp [dictSet, countKey, hne]
  | cons p rest ih =>
      obtain ⟨k₁, v₁⟩ := p
      by_cases hk : k₁ = k
      · subst hk
        simp [dictSet, countKey]
      · simp [dictSet, countKey, hk, ih]

/-- The error surface of the embedded code: `softLayerError` models the
single library exception class `SoftLayerError`; `typeError` models Python
built-in `TypeError` raised by `int(...)` on a non-numeric value (never hit
by the claims, present to keep the embedding total and honest). -/
inductive SLError where
  | softLayerError (msg : String)
  | typeError (msg : String)

/-- The client state the call path reads: the resolved credential strings
and the instance header dict `_headers`. Endpoint parsing and transport
selection from `Client.__init__` are orthogonal to every claim and are
modelled separately by the `Transport` oracle below. -/
structure Client where
  username : String
  api_key : String
  headers : HeaderMap

/-- Python `a or b` on optional strings: the left operand if truthy
(present and non-empty), else the right. -/
def pyOrStr (a b : Option String) : Option String :=
  match a with
  | some s => if s = "" then b else some s
  | Option.none => b

/-- Python truthiness of an optional string: `None` and `""` are falsy. -/
def truthyStr : Option String → Bool
  | some s => s != ""
  | Option.none => false

/-- Credential resolution and check of `Client.__init__`:
`username or API_USERNAME or os.environ.get(SL_USERNAME)` (same for the
key), then `if not all((username, api_key)): raise SoftLayerError(...)`,
then `set_authentication` which strips both strings and stores the
`authenticate` header into the fresh `_headers` dict. -/
def clientInit (username api_key apiUsernameGlobal apiKeyGlobal
    envUsername envKey : Option String) : Except SLError Client :=
  let u := pyOrStr username (pyOrStr apiUsernameGlobal envUsername)
  let k := pyOrStr api_key (pyOrStr apiKeyGlobal envKey)
  if truthyStr u && truthyStr k then
    Except.ok
      { username := u.getD ""
        api_key := k.getD ""
        headers := dictSet [] "authenticate"
          (Py.dict [("username", Py.str (pyStrip (u.getD ""))),
                    ("apiKey", Py.str (pyStrip (k.getD "")))]) }
  else
    Except.error
      (SLError.softLayerError "Must supply username, api_key and service_name")

/-- The canonical service-name marker `Client._prefix`. -/
def slNamePre : String := "SoftLayer_"

/-- Python `str.startswith`. -/
def pyStartsWith (s t : String) : Bool :=
  t.data.isPrefixOf s.data

/-- A Service handle: `Service.__init__` stores the client reference and
the (already canonicalized) service name. -/
structure Service where
  client : Client
  name : String

/-- `Client.__getitem__`: prepend the `SoftLayer_` marker when the given
name lacks it, and bind a Service to the resulting name. -/
def getItem (c : Client) (name : String) : Service :=
  if pyStartsWith name slNamePre then { client := c, name := name }
  else { client := c, name := slNamePre ++ name }

/-- `Client.remove_header`: strip the name, and delete the entry only when
present (`if name in self._headers: del self._headers[name]`). -/
def removeHeader (c : Client) (name : String) : Client :=
  let n := pyStrip name
  if hasKey c.headers n then { c with headers := dictDel c.headers n } else c

/-- The default headers built by `Service.__call__` when no `headers`
option is supplied: just the authenticate entry from the client
credentials. -/
def defaultHeaders (c : Client) : HeaderMap :=
  [("authenticate",
    Py.dict [("username", Py.str c.username), ("apiKey", Py.str c.api_key)])]

/-- The `if id is not None: headers[self.name + InitParameters] =
(dict with int(id))` step of `Service.__call__`. -/
def applyId (svcName : String) (hs : HeaderMap) : Py → Except SLError HeaderMap
  | Py.none => Except.ok hs
  | v =>
      match pyInt v with
      | some n =>
          Except.ok (dictSet hs (svcName ++ "InitParameters")
            (Py.dict [("id", Py.int n)]))
      | Option.none => Except.error (SLError.typeError "int argument")

/-- The mask step of `Service.__call__`: a dict mask goes under the
service-scoped ObjectMask header; any other non-None mask value (notably a
string, in either syntax, with no validation or rewriting) goes verbatim
under the global SoftLayer_ObjectMask header. -/
def applyMask (svcName : String) (hs : HeaderMap) : Py → HeaderMap
  | Py.none => hs
  | Py.dict m =>
      dictSet hs (svcName ++ "ObjectMask") (Py.dict [("mask", Py.dict m)])
  | v => dictSet hs "SoftLayer_ObjectMask" (Py.dict [("mask", v)])

/-- The `if limit: headers[resultLimit] = (dict with int(limit),
int(offset))` step of `Service.__call__`. -/
def applyLimit (hs : HeaderMap) (limitv offsetv : Py) : Except SLError HeaderMap :=
  if pyTruthy limitv then
    match pyInt limitv, pyInt offsetv with
    | some l, some o =>
        Except.ok (dictSet hs "resultLimit"
          (Py.dict [("limit", Py.int l), ("offset", Py.int o)]))
    | _, _ => Except.error (SLError.typeError "int argument")
  else Except.ok hs

/-- The option-merging tail of `Service.__call__` applied to the base
header dict (id, then mask, then limit, in source order). -/
def buildRest (svcName : String) (idv maskv limitv offsetv : Py)
    (hs : HeaderMap) : Except SLError HeaderMap :=
  match applyId svcName hs idv with
  | Except.error e => Except.error e
  | Except.ok hs₁ => applyLimit (applyMask svcName hs₁ maskv) limitv offsetv

/-- Header construction of `Service.__call__`: read the recognized options
out of `kwargs` via `kwargs.get` (every other key is never read), start
from the supplied `headers` option or the default authenticate dict, and
merge id, mask and limit into that base. A non-dict non-None `headers`
value is rejected here; Python would fail on it slightly later, at the
first header item assignment or inside the transport. -/
def serviceCallHeaders (c : Client) (svcName : String)
    (kwargs : List (String × Py)) : Except SLError HeaderMap :=
  let idv := (dictGet kwargs "id").getD Py.none
  let maskv := (dictGet kwargs "mask").getD Py.none
  let headersv := (dictGet kwargs "headers").getD Py.none
  let limitv := (dictGet kwargs "limit").getD Py.none
  let offsetv := (dictGet kwargs "offset").getD (Py.int 0)
  match headersv with
  | Py.none => buildRest svcName idv maskv limitv offsetv (defaultHeaders c)
  | Py.dict m => buildRest svcName idv maskv limitv offsetv m
  | _ => Except.error (SLError.typeError "headers option must be a mapping")

/-- The XML-RPC response as seen by `Client.__call__`: a decoded value, or
a protocol `xmlrpclib.Fault` with a code and a fault string. -/
inductive Response where
  | success (v : Py)
  | fault (code : Int) (faultString : String)

/-- The XML-RPC proxy layer as an oracle from request URI, method name,
positional arguments and header set to a response. -/
abbrev Transport := String → String → List Py → HeaderMap → Response

/-- `Client.__call__`: join the endpoint URL and service name into the
request URI, issue the call, and translate `xmlrpclib.Fault` into
`SoftLayerError(e.faultString)`. -/
def clientCall (t : Transport) (endpointUrl service method : String)
    (args : List Py) (headers : HeaderMap) : Except SLError Py :=
  match t (endpointUrl ++ "/" ++ service) method args headers with
  | Response.success v => Except.ok v
  | Response.fault _ fs => Except.error (SLError.softLayerError fs)

/-- `Service.__call__` end to end: build the headers from the options,
then hand the call to `Client.__call__` with them. -/
def serviceCall (t : Transport) (endpointUrl : String) (svc : Service)
    (method : String) (args : List Py) (kwargs : List (String × Py)) :
    Except SLError Py :=
  match serviceCallHeaders svc.client svc.name kwargs with
  | Except.error e => Except.error e
  | Except.ok hs => clientCall t endpointUrl svc.name method args hs

/-- Modelled from the spec: the page loop of `Client.iter_call`, which is
absent from src/SoftLayer/API.py (only the tests reference it). One step
calls the underlying method with the effective chunk (the chunk, or the
remaining user limit if smaller) at the running offset; a list page is
yielded in order and iteration continues at the next offset unless the
page was shorter than requested or the user limit is exhausted; a
non-sequence response is yielded once and iteration stops. The fuel
argument bounds the loop for the embedding; every claim instance supplies
enough fuel. Returns the yielded elements together with the log of
(limit, offset) pairs passed to the underlying calls. -/
def iterCallGo (call : Nat → Nat → Py) (chunk : Nat) :
    Nat → Option Nat → Nat → List Py × List (Nat × Nat)
  | 0, _, _ => ([], [])
  | fuel + 1, rem, offset =>
      let eff := match rem with
        | some r => min chunk r
        | Option.none => chunk
      match call eff offset with
      | Py.list xs =>
          let rem₂ := rem.map (fun r => r - xs.length)
          if xs.length < eff then (xs, [(eff, offset)])
          else
            match rem₂ with
            | some 0 => (xs, [(eff, offset)])
            | _ =>
                let next := iterCallGo call chunk fuel rem₂ (offset + eff)
                (xs ++ next.1, (eff, offset) :: next.2)
      | v => ([v], [(eff, offset)])

/-- Modelled from the spec: `Client.iter_call` (absent from
src/SoftLayer/API.py). A non-positive chunk fails with an argument error
before any underlying call; otherwise the page loop runs from the starting
offset with the optional user limit. -/
def iterCall (call : Nat → Nat → Py) (chunk : Nat) (ulimit : Option Nat)
    (offset : Nat) (fuel : Nat) :
    Except SLError (List Py × List (Nat × Nat)) :=
  if chunk = 0 then
    Except.error (SLError.softLayerError "Chunk size should be positive")
  else Except.ok (iterCallGo call chunk fuel ulimit offset)

/-- A concrete client used by the closed counterexample and witness
statements (credentials as in the repository test suite). -/
def testClient : Client :=
  { username := "doesnotexist"
    api_key := "issurelywrong"
    headers := [("authenticate",
      Py.dict [("username", Py.str "doesnotexist"),
               ("apiKey", Py.str "issurelywrong")])] }

theorem append_ne_of_not_suffix (s t u : String)
    (h : ¬(t.data <:+ u.data)) : s ++ t ≠ u := by
  intro he
  apply h
  rw [← he, String.data_append]
  exact List.suffix_append _ _

theorem pyStartsWith_append (p s : String) :
    pyStartsWith (p ++ s) p = true := by
  rw [pyStartsWith, String.data_append, List.isPrefixOf_iff_prefix]
  exact List.prefix_append _ _

theorem dictGet_eq_none_of_not_mem (m : HeaderMap) (k : String)
    (h : ¬ k ∈ m.map Prod.fst) : dictGet m k = Option.none := by
  induction m with
  | nil => rfl
  | cons p rest ih =>
      obtain ⟨k₁, v₁⟩ := p
      simp only [List.map_cons, List.mem_cons, not_or] at h
      simp only [dictGet]
      rw [if_neg (fun hh => h.1 hh.symm)]
      exact ih h.2

theorem dictGet_dictDel_self (m : HeaderMap) (k : String)
    (h : (m.map Prod.fst).Nodup) : dictGet (dictDel m k) k = Option.none := by
  induction m with
  | nil => rfl
  | cons p rest ih =>
      obtain ⟨k₁, v₁⟩ := p
      simp only [List.map_cons, List.nodup_cons] at h
      by_cases hk : k₁ = k
      · subst hk
        simp only [dictDel, if_pos rfl]
        exact dictGet_eq_none_of_not_mem rest k₁ h.1
      · simp [dictDel, dictGet, hk, ih h.2]

theorem dictGet_dictDel_ne (m : HeaderMap) (k k₂ : String)
    (h : k₂ ≠ k) : dictGet (dictDel m k) k₂ = dictGet m k₂ := by
  induction m with
  | nil => rfl
  | cons p rest ih =>
      obtain ⟨k₁, v₁⟩ := p
      by_cases hk : k₁ = k
      · subst hk
        have h1 : ¬(k₁ = k₂) := fun hh => h hh.symm
        simp [dictDel, dictGet, h1]
      · simp [dictDel, dictGet, hk, ih]

theorem countKey_applyId (svcName : String) (hs hs₁ : HeaderMap) (idv : Py)
    (h : applyId svcName hs idv = Except.ok hs₁) :
    countKey hs₁ "authenticate" = countKey hs "authenticate" := by
  have hne : svcName ++ "InitParameters" ≠ "authenticate" :=
    append_ne_of_not_suffix _ _ _ (by decide)
  cases idv with
  | none => cases h; rfl
  | int n =>
      simp only [applyId, pyInt, Except.ok.injEq] at h
      rw [← h]
      exact countKey_dictSet_ne _ _ _ _ (Ne.symm hne)
  | str s => simp [applyId, pyInt] at h
  | dict m => simp [applyId, pyInt] at h
  | list xs => simp [applyId, pyInt] at h

theorem countKey_applyMask (svcName : String) (hs : HeaderMap) (maskv : Py) :
    countKey (applyMask svcName hs maskv) "authenticate"
      = countKey hs "authenticate" := by
  have hne : svcName ++ "ObjectMask" ≠ "authenticate" :=
    append_ne_of_not_suffix _ _ _ (by decide)
  have hne₂ : ("SoftLayer_ObjectMask" : String) ≠ "authenticate" := by decide
  cases maskv with
  | none => rfl
  | int n => exact countKey_dictSet_ne _ _ _ _ (Ne.symm hne₂)
  | str s => exact countKey_dictSet_ne _ _ _ _ (Ne.symm hne₂)
  | dict m => exact countKey_dictSet_ne _ _ _ _ (Ne.symm hne)
  | list xs => exact countKey_dictSet_ne _ _ _ _ (Ne.symm hne₂)

theorem countKey_applyLimit (hs hs₂ : HeaderMap) (limitv offsetv : Py)
    (h : applyLimit hs limitv offsetv = Except.ok hs₂) :
    countKey hs₂ "authenticate" = countKey hs "authenticate" := by
  have hne : ("resultLimit" : String) ≠ "authenticate" := by decide
  rw [applyLimit] at h
  by_cases ht : pyTruthy limitv = true
  · rw [if_pos ht] at h
    cases hl : pyInt limitv with
    | none => rw [hl] at h; cases h
    | some l =>
        cases ho : pyInt offsetv with
        | none => rw [hl, ho] at h; cases h
        | some o =>
            rw [hl, ho] at h
            cases h
            exact countKey_dictSet_ne _ _ _ _ (Ne.symm hne)
  · rw [if_neg ht] at h
    cases h
    rfl

theorem countKey_buildRest (svcName : String) (idv maskv limitv offsetv : Py)
    (hs hsOut : HeaderMap)
    (h : buildRest svcName idv maskv limitv offsetv hs = Except.ok hsOut) :
    countKey hsOut "authenticate" = countKey hs "authenticate" := by
  rw [buildRest] at h
  cases hid : applyId svcName hs idv with
  | error e => rw [hid] at h; cases h
  | ok hs₁ =>
      rw [hid] at h
      calc countKey hsOut "authenticate"
          = countKey (applyMask svcName hs₁ maskv) "authenticate" :=
            countKey_applyLimit _ _ _ _ h
        _ = countKey hs₁ "authenticate" := countKey_applyMask _ _ _
        _ = countKey hs "authenticate" := countKey_applyId _ _ _ _ hid

/-- C7: every remote-reported protocol fault surfaces to the caller as the
single library error kind (SoftLayerError) carrying the fault message text
verbatim; no other error type is produced for remote faults. -/
theorem clientCall_fault_surfaces_verbatim (t : Transport)
    (endpointUrl service method : String) (args : List Py)
    (headers : HeaderMap) (code : Int) (fs : String)
    (h : t (endpointUrl ++ "/" ++ service) method args headers
        = Response.fault code fs) :
    clientCall t endpointUrl service method args headers
      = Except.error (SLError.softLayerError fs) := by
  rw [clientCall, h]

theorem clientCall_fault_surfaces_verbatim_witness :
    clientCall (fun _ _ _ _ => Response.fault 42 "fault text") "ENDPOINT"
      "SoftLayer_SERVICE" "METHOD" [] []
      = Except.error (SLError.softLayerError "fault text") :=
  clientCall_fault_surfaces_verbatim _ _ _ _ _ _ 42 _ rfl

/-- C8: when neither an explicit username/key, nor the module-level
defaults, nor the environment yields truthy credentials, constructing a
Client fails immediately with the configuration error, before any call. -/
theorem clientInit_missing_credentials_error
    (username api_key gU gK eU eK : Option String)
    (h : truthyStr (pyOrStr username (pyOrStr gU eU)) = false
       ∨ truthyStr (pyOrStr api_key (pyOrStr gK eK)) = false) :
    clientInit username api_key gU gK eU eK
      = Except.error (SLError.softLayerError
          "Must supply username, api_key and service_name") := by
  rw [clientInit]
  rcases h with h | h <;> simp [h]

theorem clientInit_missing_credentials_error_witness :
    truthyStr (pyOrStr Option.none (pyOrStr Option.none Option.none)) = false
    ∧ clientInit Option.none Option.none Option.none Option.none
        Option.none Option.none
      = Except.error (SLError.softLayerError
          "Must supply username, api_key and service_name") :=
  ⟨rfl, clientInit_missing_credentials_error _ _ _ _ _ _ (Or.inl rfl)⟩

/-- C9: indexing the client always produces a service name carrying the
canonical SoftLayer marker: a name that already carries it is kept
unchanged, a name lacking it gets it prepended, and in that case indexing
by the bare name and by the marked name denote the same service. -/
theorem getitem_canonicalizes_name (c : Client) (name : String) :
    pyStartsWith (getItem c name).name slNamePre = true
    ∧ (pyStartsWith name slNamePre = true → (getItem c name).name = name)
    ∧ (pyStartsWith name slNamePre = false →
        (getItem c name).name = slNamePre ++ name
        ∧ getItem c name = getItem c (slNamePre ++ name)) := by
  refine ⟨?_, fun h => ?_, fun h => ?_⟩
  · cases h : pyStartsWith name slNamePre with
    | true => simp [getItem, h]
    | false => simp [getItem, h, pyStartsWith_append]
  · simp [getItem, h]
  · constructor
    · simp [getItem, h]
    · simp [getItem, h, pyStartsWith_append]

theorem getitem_canonicalizes_name_witness :
    pyStartsWith (getItem testClient "Account").name slNamePre = true
    ∧ (getItem testClient "SoftLayer_Account").name = "SoftLayer_Account"
    ∧ (getItem testClient "Account").name = slNamePre ++ "Account"
    ∧ getItem testClient "Account" = getItem testClient (slNamePre ++ "Account") := by
  have h := getitem_canonicalizes_name testClient "Account"
  have h₂ := getitem_canonicalizes_name testClient "SoftLayer_Account"
  exact ⟨h.1, h₂.2.1 (by decide), (h.2.2 (by decide)).1, (h.2.2 (by decide)).2⟩

/-- C10: remove_header strips the name; an absent (stripped) name leaves
the client completely unchanged with no error, and a present one deletes
exactly that entry while every other entry reads the same as before. -/
theorem removeHeader_frame (c : Client) (name : String) :
    (hasKey c.headers (pyStrip name) = false → removeHeader c name = c)
    ∧ ((c.headers.map Prod.fst).Nodup →
        hasKey c.headers (pyStrip name) = true →
        dictGet (removeHeader c name).headers (pyStrip name) = Option.none
        ∧ ∀ k, k ≠ pyStrip name →
            dictGet (removeHeader c name).headers k = dictGet c.headers k) := by
  constructor
  · intro h
    simp [removeHeader, h]
  · intro hnd h
    simp only [removeHeader, h, if_true]
    exact ⟨dictGet_dictDel_self _ _ hnd, fun k hk => dictGet_dictDel_ne _ _ _ hk⟩

/-- A concrete client for the remove_header witness. -/
def wClient10 : Client :=
  { username := "u"
    api_key := "k"
    headers := [("authenticate", Py.none), ("resultLimit", Py.int 1)] }

theorem removeHeader_frame_witness :
    removeHeader wClient10 "absent" = wClient10
    ∧ dictGet (removeHeader wClient10 " authenticate ").headers "authenticate"
        = Option.none
    ∧ dictGet (removeHeader wClient10 " authenticate ").headers "resultLimit"
        = dictGet wClient10.headers "resultLimit" := by
  have ht : pyStrip " authenticate " = "authenticate" := by decide
  have h₁ := (removeHeader_frame wClient10 "absent").1 (by decide)
  have h₂ := (removeHeader_frame wClient10 " authenticate ").2 (by decide) (by decide)
  refine ⟨h₁, ?_, ?_⟩
  · rw [← ht]
    exact h₂.1
  · exact h₂.2 "resultLimit" (by decide)

/-- C2 is false on this code: no dotted-to-bracket rewriting happens in
Service.__call__; the two equivalent spellings produce different
object-mask header bodies. -/
theorem string_mask_bodies_differ :
    serviceCallHeaders testClient "SoftLayer_SERVICE"
        [("mask", Py.str "mask.a.b")]
      = Except.ok [("authenticate",
          Py.dict [("username", Py.str "doesnotexist"),
                   ("apiKey", Py.str "issurelywrong")]),
          ("SoftLayer_ObjectMask", Py.dict [("mask", Py.str "mask.a.b")])]
    ∧ serviceCallHeaders testClient "SoftLayer_SERVICE"
        [("mask", Py.str "mask[a[b]]")]
      = Except.ok [("authenticate",
          Py.dict [("username", Py.str "doesnotexist"),
                   ("apiKey", Py.str "issurelywrong")]),
          ("SoftLayer_ObjectMask", Py.dict [("mask", Py.str "mask[a[b]]")])]
    ∧ Py.dict [("mask", Py.str "mask.a.b")]
        ≠ Py.dict [("mask", Py.str "mask[a[b]]")] :=
  ⟨rfl, rfl, by simp⟩

/-- C2 (amended): a string mask, in either spelling, is transmitted
verbatim as the body of the global SoftLayer_ObjectMask header; no
normalization is applied. -/
theorem serviceCallHeaders_string_mask_verbatim (c : Client)
    (svc : String) (s : String) :
    serviceCallHeaders c svc [("mask", Py.str s)]
      = Except.ok [("authenticate",
          Py.dict [("username", Py.str c.username),
                   ("apiKey", Py.str c.api_key)]),
          ("SoftLayer_ObjectMask", Py.dict [("mask", Py.str s)])] := by
  simp [serviceCallHeaders, dictGet, buildRest, applyId, applyMask,
    applyLimit, defaultHeaders, dictSet, pyTruthy]

/-- C3 is false on this code: a supplied headers mapping is not used
verbatim; the id option is still merged into it. -/
theorem headers_override_not_verbatim :
    serviceCallHeaders testClient "SoftLayer_SERVICE"
        [("headers", Py.dict []), ("id", Py.int 5678)]
      = Except.ok [("SoftLayer_SERVICEInitParameters",
          Py.dict [("id", Py.int 5678)])]
    ∧ ([("SoftLayer_SERVICEInitParameters",
          Py.dict [("id", Py.int 5678)])] : HeaderMap) ≠ [] :=
  ⟨rfl, by simp⟩

/-- C3 (amended): a supplied headers mapping replaces the default
authenticate headers as the base of the call (so it is used verbatim when
no other option is passed), but the id, mask and limit options are each
still merged into it. -/
theorem serviceCallHeaders_override_is_base (c : Client) (svc : String)
    (h : HeaderMap) (n : Int) (s : String) (l off : Int) (hl : l ≠ 0) :
    serviceCallHeaders c svc [("headers", Py.dict h)] = Except.ok h
    ∧ serviceCallHeaders c svc [("headers", Py.dict h), ("id", Py.int n)]
      = Except.ok (dictSet h (svc ++ "InitParameters")
          (Py.dict [("id", Py.int n)]))
    ∧ serviceCallHeaders c svc [("headers", Py.dict h), ("mask", Py.str s)]
      = Except.ok (dictSet h "SoftLayer_ObjectMask"
          (Py.dict [("mask", Py.str s)]))
    ∧ serviceCallHeaders c svc
        [("headers", Py.dict h), ("limit", Py.int l), ("offset", Py.int off)]
      = Except.ok (dictSet h "resultLimit"
          (Py.dict [("limit", Py.int l), ("offset", Py.int off)])) := by
  refine ⟨?_, ?_, ?_, ?_⟩ <;>
    simp [serviceCallHeaders, dictGet, buildRest, applyId, applyMask,
      applyLimit, pyInt, pyTruthy, hl]

theorem serviceCallHeaders_override_is_base_witness :
    (9 : Int) ≠ 0
    ∧ serviceCallHeaders testClient "SoftLayer_SERVICE"
        [("headers", Py.dict []), ("limit", Py.int 9), ("offset", Py.int 10)]
      = Except.ok (dictSet [] "resultLimit"
          (Py.dict [("limit", Py.int 9), ("offset", Py.int 10)])) :=
  ⟨by decide,
   (serviceCallHeaders_override_is_base testClient "SoftLayer_SERVICE" []
     5678 "mask.a.b" 9 10 (by decide)).2.2.2⟩

/-- C4 names a code bug: the unbalanced string mask is not validated; it
is placed verbatim into the object-mask header and the call proceeds to
the transport, while the test suite of the repository expects a Malformed
Mask SoftLayerError before any network activity. -/
theorem unbalanced_mask_reaches_transport :
    serviceCallHeaders testClient "SoftLayer_SERVICE"
        [("mask", Py.str "mask[a.b")]
      = Except.ok [("authenticate",
          Py.dict [("username", Py.str "doesnotexist"),
                   ("apiKey", Py.str "issurelywrong")]),
          ("SoftLayer_ObjectMask", Py.dict [("mask", Py.str "mask[a.b")])]
    ∧ serviceCall (fun _ _ _ _ => Response.success (Py.str "reached"))
        "ENDPOINT" { client := testClient, name := "SoftLayer_SERVICE" }
        "METHOD" [] [("mask", Py.str "mask[a.b")]
      = Except.ok (Py.str "reached") :=
  ⟨rfl, rfl⟩

/-- C5 is false on this code as universally stated: a call supplying an
explicit headers override builds a HeaderSet with no authenticate entry at
all. -/
theorem headers_override_drops_authenticate :
    serviceCallHeaders testClient "SoftLayer_SERVICE"
        [("headers", Py.dict [])] = Except.ok []
    ∧ countKey ([] : HeaderMap) "authenticate" = 0 :=
  ⟨rfl, rfl⟩

/-- C5 (amended): every call that does not supply the headers override
builds a HeaderSet with exactly one authenticate entry, and a call with no
options at all builds exactly the default authenticate-only HeaderSet. -/
theorem serviceCallHeaders_single_authenticate (c : Client) (svc : String)
    (kwargs : List (String × Py)) (hs : HeaderMap)
    (hnone : (dictGet kwargs "headers").getD Py.none = Py.none)
    (hok : serviceCallHeaders c svc kwargs = Except.ok hs) :
    countKey hs "authenticate" = 1
    ∧ serviceCallHeaders c svc [] = Except.ok (defaultHeaders c) := by
  refine ⟨?_, rfl⟩
  rw [serviceCallHeaders] at hok
  simp only [hnone] at hok
  rw [countKey_buildRest _ _ _ _ _ _ _ hok]
  simp [defaultHeaders, countKey]

theorem serviceCallHeaders_single_authenticate_witness :
    (dictGet [("id", Py.int 5678)] "headers").getD Py.none = Py.none
    ∧ countKey [("authenticate",
          Py.dict [("username", Py.str "doesnotexist"),
                   ("apiKey", Py.str "issurelywrong")]),
        ("SoftLayer_SERVICEInitParameters", Py.dict [("id", Py.int 5678)])]
        "authenticate" = 1
    ∧ serviceCallHeaders testClient "SoftLayer_SERVICE" []
        = Except.ok (defaultHeaders testClient) := by
  have h := serviceCallHeaders_single_authenticate testClient
    "SoftLayer_SERVICE" [("id", Py.int 5678)]
    [("authenticate",
        Py.dict [("username", Py.str "doesnotexist"),
                 ("apiKey", Py.str "issurelywrong")]),
      ("SoftLayer_SERVICEInitParameters", Py.dict [("id", Py.int 5678)])]
    rfl rfl
  exact ⟨rfl, h.1, h.2⟩

/-- C6 is false on this code: a keyword option outside the recognized set
does not make the call fail; the header build succeeds exactly as if the
option had not been passed. -/
theorem unknown_option_call_succeeds :
    serviceCallHeaders testClient "SoftLayer_SERVICE"
        [("invalid_kwarg", Py.str "invalid")]
      = Except.ok (defaultHeaders testClient) :=
  rfl

/-- C6 (amended): Service.__call__ reads only the recognized option names
out of kwargs, so an option with any other name is silently ignored: the
call behaves identically with and without it. -/
theorem serviceCallHeaders_ignores_unknown_options (c : Client)
    (svc : String) (kwargs : List (String × Py)) (k : String) (v : Py)
    (h : ¬k ∈ (["id", "mask", "headers", "limit", "offset"] : List String)) :
    serviceCallHeaders c svc ((k, v) :: kwargs)
      = serviceCallHeaders c svc kwargs := by
  simp only [List.mem_cons, List.mem_singleton, not_or] at h
  obtain ⟨h1, h2, h3, h4, h5⟩ := h
  simp [serviceCallHeaders, dictGet, h1, h2, h3, h4, h5]

theorem serviceCallHeaders_ignores_unknown_options_witness :
    ¬("invalid_kwarg" : String)
        ∈ (["id", "mask", "headers", "limit", "offset"] : List String)
    ∧ serviceCallHeaders testClient "SoftLayer_SERVICE"
        [("invalid_kwarg", Py.str "invalid"), ("id", Py.int 1)]
      = serviceCallHeaders testClient "SoftLayer_SERVICE" [("id", Py.int 1)] :=
  ⟨by decide,
   serviceCallHeaders_ignores_unknown_options testClient "SoftLayer_SERVICE"
     [("id", Py.int 1)] "invalid_kwarg" (Py.str "invalid") (by decide)⟩

theorem iterCallGo_succ (call : Nat → Nat → Py) (chunk f : Nat)
    (rem : Option Nat) (offset : Nat) :
    iterCallGo call chunk (f + 1) rem offset
      = (let eff := match rem with
           | some r => min chunk r
           | Option.none => chunk
         match call eff offset with
         | Py.list xs =>
             let rem₂ := rem.map (fun r => r - xs.length)
             if xs.length < eff then (xs, [(eff, offset)])
             else
               match rem₂ with
               | some 0 => (xs, [(eff, offset)])
               | _ =>
                   let next := iterCallGo call chunk f rem₂ (offset + eff)
                   (xs ++ next.1, (eff, offset) :: next.2)
         | v => ([v], [(eff, offset)])) := rfl

/-- C1: over any underlying ordered sequence of exactly 125 elements
(served in slices of at most the requested limit starting at the requested
offset), iter_call with chunk 100 and no user limit yields all 125
elements in order and issues exactly two underlying calls, at offsets 0
and 100, each with limit 100. -/
theorem iterCall_chunk100_len125 (data : List Py) (fuel : Nat)
    (hlen : data.length = 125) (hfuel : 2 ≤ fuel) :
    iterCall (fun l o => Py.list ((data.drop o).take l)) 100 Option.none 0 fuel
      = Except.ok (data, [(100, 0), (100, 100)]) := by
  obtain ⟨f, rfl⟩ : ∃ f, fuel = f + 2 := ⟨fuel - 2, by omega⟩
  have h1 : ((data.drop 0).take 100).length = 100 := by
    rw [List.drop_zero, List.length_take, hlen]
    decide
  have h2 : (data.drop 100).take 100 = data.drop 100 :=
    List.take_of_length_le (by rw [List.length_drop, hlen]; decide)
  have h3 : ((data.drop 100).take 100).length = 25 := by
    rw [h2, List.length_drop, hlen]
  have hf2 : f + 2 = (f + 1) + 1 := rfl
  rw [iterCall, if_neg (by norm_num), hf2, iterCallGo_succ]
  simp only [Option.map_none', h1, lt_irrefl, if_false, Nat.zero_add,
    iterCallGo_succ, h3, Nat.lt_irrefl]
  norm_num [h2]

theorem iterCall_chunk100_len125_witness :
    (List.replicate 125 Py.none).length = 125
    ∧ iterCall
        (fun l o => Py.list (((List.replicate 125 Py.none).drop o).take l))
        100 Option.none 0 2
      = Except.ok (List.replicate 125 Py.none, [(100, 0), (100, 100)]) :=
  ⟨by simp,
   iterCall_chunk100_len125 (List.replicate 125 Py.none) 2 (by simp)
     (Nat.le_refl 2)⟩

end SLAPI
